import Mathlib

/-!
Verification development for the keycloak-bridge health-check orchestration
and caching engine, together with the audit-events statistics module.

The health-check engine itself (packages `pkg/health` and `pkg/job` of the
repository) is not present under `src/`; only its wiring in the program's
main function is.  Definitions for the missing parts are therefore modelled
from the specification (marked `Modelled from the spec:`), while the static
allow-list tables, constructor call sites and the statistics module are
translated directly from the source.
-/

-- ===================================================================
-- Health data model (spec section 3)
-- ===================================================================

/-- Ordered status enum of a health report: OK < DEGRADED < KO. -/
inductive Status where
  | OK
  | DEGRADED
  | KO
  deriving DecidableEq, Repr

/-- Severity rank of a status, used for the worst-of ordering. -/
def Status.sev : Status → Nat
  | .OK => 0
  | .DEGRADED => 1
  | .KO => 2

/-- Worst (maximum-severity) of two statuses. -/
def Status.worst (a b : Status) : Status :=
  if a.sev < b.sev then b else a

/-- One probe outcome: module, check name, status, opaque detail payload,
execution instant and validity duration (spec section 3, HealthReport). -/
structure HealthReport where
  module : String
  checkName : String
  status : Status
  detail : String
  timestamp : Nat
  validity : Nat
  deriving DecidableEq, Repr

/-- A report is fresh iff `now - timestamp < validity` (spec section 3). -/
def freshReport (now : Nat) (r : HealthReport) : Bool :=
  now - r.timestamp < r.validity

/-- The cache of one component instance, as a point-readable map keyed by
(module, checkName) (spec section 4.3; the instance identifier is fixed per
cache, see the storage model further below). -/
def Cache : Type := String × String → Option HealthReport

/-- Point write: replaces the entry for exactly one key (spec section 4.3). -/
def Cache.update (cache : Cache) (k : String × String) (r : HealthReport) : Cache :=
  fun q => if q = k then some r else cache q

/-- Outcome of a Registry probe call: success carrying a status and detail,
or an infrastructure-level failure (error or timeout, spec section 4.2). -/
inductive ProbeResult where
  | ok (status : Status) (detail : String)
  | err
  deriving DecidableEq, Repr

/-- Detail payload of the KO report produced for a failed probe. -/
def probeErrorDetail : String := "probe error or timeout"

/-- Validation error message of the gate (spec section 7, ValidationError). -/
def validationErrMsg : String := "unknown module or healthcheck"

-- ===================================================================
-- Validator allow-list (translated from src/unnamed/part_000)
-- ===================================================================

/-- The static module allow-list `validModules` (src/unnamed/part_000
lines 179-189); the empty string means "all modules". -/
def validModules : List String :=
  ["", "cockroach", "elasticsearch", "flaki", "influx", "jaeger", "keycloak", "redis", "sentry"]

/-- The static per-module check-name allow-list `authorizedHC`
(src/unnamed/part_000 lines 199-208); the empty string means "all checks of
the module"; an unknown module has no authorized names. -/
def authorizedHC : String → List String
  | "cockroach" => ["", "ping"]
  | "elasticsearch" => ["", "ping"]
  | "flaki" => ["", "nextid"]
  | "influx" => ["", "ping"]
  | "jaeger" => ["", "agent", "collector"]
  | "keycloak" => ["", "createuser", "deleteuser"]
  | "redis" => ["", "ping"]
  | "sentry" => ["", "ping"]
  | _ => []

/-- Modelled from the spec: the Validator gate (spec section 4.1), combining
the two validation middlewares wired in src/unnamed/part_000 (module gate at
lines 566-572, per-module check-name gate at lines 507-544): a pair passes
iff the module is in `validModules` and, for a concrete module, the check
name is in that module's `authorizedHC` set; the module wildcard carries the
check-name wildcard. The middleware bodies are not under src. -/
def authorize (m c : String) : Bool :=
  validModules.contains m && (if m = "" then c = "" else (authorizedHC m).contains c)

/-- Concrete check names declared for a module (the wildcard entry denotes
the aggregate and is not itself a probe target, spec section 4.4 step 2). -/
def checksOf (m : String) : List String :=
  (authorizedHC m).filter (fun c => c ≠ "")

/-- Concrete module names (spec section 4.4 step 2). -/
def allModules : List String :=
  validModules.filter (fun m => m ≠ "")

/-- Modelled from the spec: request expansion into concrete targets (spec
section 4.4 step 2): a non-wildcard pair is a singleton, a wildcard
checkName expands to the module's declared checks, a wildcard module
expands to every known module. -/
def targetsOf (m c : String) : List (String × String) :=
  if m = "" then allModules.flatMap (fun m2 => (checksOf m2).map (fun c2 => (m2, c2)))
  else if c = "" then (checksOf m).map (fun c2 => (m, c2))
  else [(m, c)]

-- ===================================================================
-- Orchestrator (modelled from the spec, section 4.4; the component body
-- health.NewComponent wired at src/unnamed/part_000 line 569 is not
-- under src)
-- ===================================================================

/-- Modelled from the spec: "execute fresh" for one target (spec section
4.4 step 4): call the Registry; on success write the result to the cache;
on probe error or timeout produce a KO report for that key without writing
it. The third component counts probe invocations. -/
def executeFresh (probe : String → String → ProbeResult) (cache : Cache)
    (now validity : Nat) (m c : String) : HealthReport × Cache × Nat :=
  match probe m c with
  | .ok s d =>
    let r : HealthReport := ⟨m, c, s, d, now, validity⟩
    (r, cache.update (m, c) r, 1)
  | .err =>
    (⟨m, c, .KO, probeErrorDetail, now, validity⟩, cache, 1)

/-- Modelled from the spec: per-target resolution (spec section 4.4 step
3): with noCache execute fresh unconditionally; otherwise serve a fresh
cached entry, and execute fresh when the entry is absent or stale. -/
def resolveTarget (probe : String → String → ProbeResult) (cache : Cache)
    (now : Nat) (noCache : Bool) (validity : Nat) (m c : String) :
    HealthReport × Cache × Nat :=
  if noCache then executeFresh probe cache now validity m c
  else
    match cache (m, c) with
    | some r =>
      if freshReport now r then (r, cache, 0)
      else executeFresh probe cache now validity m c
    | none => executeFresh probe cache now validity m c

/-- Modelled from the spec: fan-out over a target list (spec section 4.4
step 5), resolving each target and threading the cache; one target's
failure produces only its own KO entry and never removes siblings. -/
def fanOutPairs (probe : String → String → ProbeResult) (now : Nat)
    (noCache : Bool) (validity : String → Nat) :
    List (String × String) → Cache → List HealthReport × Cache × Nat
  | [], cache => ([], cache, 0)
  | t :: ts, cache =>
    let p := resolveTarget probe cache now noCache (validity t.1) t.1 t.2
    let q := fanOutPairs probe now noCache validity ts p.2.1
    (p.1 :: q.1, q.2.1, p.2.2 + q.2.2)

/-- Aggregate status of a response: the worst of its entries' statuses,
OK for an empty list (spec section 3). -/
def aggregate (rs : List HealthReport) : Status :=
  rs.foldl (fun s r => s.worst r.status) .OK

/-- Modelled from the spec: the Orchestrator entry point (spec section
4.4): validate first and fail fast without touching Registry or cache,
then expand targets, resolve each and assemble entries plus the worst-of
aggregate. The third component counts probe invocations. -/
def orchestrate (probe : String → String → ProbeResult) (cache : Cache)
    (now : Nat) (validity : String → Nat) (noCache : Bool) (m c : String) :
    Except String (List HealthReport × Status) × Cache × Nat :=
  if authorize m c then
    let q := fanOutPairs probe now noCache validity (targetsOf m c) cache
    (Except.ok (q.1, aggregate q.1), q.2.1, q.2.2)
  else
    (Except.error validationErrMsg, cache, 0)

-- ===================================================================
-- Single-flight execution (modelled from the spec, section 4.4 step 4
-- and section 5; no single-flight code is under src)
-- ===================================================================

/-- Modelled from the spec: one caller's step against the per-key
single-flight slot (spec section 4.4 step 4): a fresh cached entry is
served directly; otherwise the caller joins an in-flight execution when
one exists, and only a caller finding the slot empty wins and invokes the
probe. Returns the slot after the step, the number of probe invocations
of this caller (0 or 1) and the report this caller receives. -/
def sfCaller (probe : String → String → ProbeResult) (cache : Cache)
    (now validity : Nat) (m c : String) (slot : Option HealthReport) :
    Option HealthReport × Nat × HealthReport :=
  match cache (m, c) with
  | some r =>
    if freshReport now r then (slot, 0, r)
    else
      match slot with
      | some w => (some w, 0, w)
      | none =>
        let e := executeFresh probe cache now validity m c
        (some e.1, 1, e.1)
  | none =>
    match slot with
    | some w => (some w, 0, w)
    | none =>
      let e := executeFresh probe cache now validity m c
      (some e.1, 1, e.1)

/-- Modelled from the spec: `n` concurrent identical requests for one key
settled against the shared single-flight slot (spec section 4.4 step 4);
returns the total number of probe invocations and the report received by
each caller. -/
def singleFlightRun (probe : String → String → ProbeResult) (cache : Cache)
    (now validity : Nat) (m c : String) :
    Option HealthReport → Nat → Nat × List HealthReport
  | _, 0 => (0, [])
  | slot, n + 1 =>
    let s := sfCaller probe cache now validity m c slot
    let rest := singleFlightRun probe cache now validity m c s.1 n
    (s.2.1 + rest.1, s.2.2 :: rest.2)

-- ===================================================================
-- Persisted cache store (constructor call site at src/unnamed/part_000
-- line 497; row layout modelled from the spec, sections 4.3 and 6)
-- ===================================================================

/-- One persisted cache row: identified by (component name, component
instance identifier, module, checkName) plus the serialized payload, the
last-updated timestamp and the validity duration (spec section 6). -/
structure StorageRow where
  componentName : String
  componentID : String
  module : String
  healthcheck : String
  reportPayload : String
  lastUpdated : Nat
  validity : Nat
  deriving DecidableEq, Repr

/-- Identifying key of a persisted row (spec section 6). -/
def rowKey (r : StorageRow) : String × String × String × String :=
  (r.componentName, r.componentID, r.module, r.healthcheck)

/-- The Cache Store of one component instance; the instance identifier is
explicit state set at construction. -/
structure StorageModule where
  componentName : String
  componentID : String
  deriving DecidableEq, Repr

/-- Constructor of the Cache Store: the component name and instance
identifier are explicit parameters, as at the call site
`health.NewStorageModule(ComponentName, ComponentID, cockroachConn)`
(src/unnamed/part_000 line 497); the row store itself is passed to each
operation below. The body is not under src and is modelled from the spec
(section 6, persisted layout). -/
def NewStorageModule (name id : String) : StorageModule :=
  ⟨name, id⟩

/-- Modelled from the spec: writing one report replaces the prior entry
for exactly its own (instance, module, checkName) key (spec section 3,
first invariant). -/
def writeRow (s : StorageModule) (now validity : Nat) (m c payload : String)
    (rows : List StorageRow) : List StorageRow :=
  let row : StorageRow := ⟨s.componentName, s.componentID, m, c, payload, now, validity⟩
  row :: rows.filter (fun r => rowKey r ≠ rowKey row)

/-- Modelled from the spec: `Update(module, reports, validity)` (interface
at src/unnamed/part_000 lines 489-493) persists each check's report of the
module under this instance's key. -/
def updateStorage (s : StorageModule) (now validity : Nat) (m : String)
    (reports : List (String × String)) (rows : List StorageRow) : List StorageRow :=
  reports.foldl (fun acc rep => writeRow s now validity m rep.1 rep.2 acc) rows

/-- Pairwise distinctness of persisted row keys (spec section 3: at most
one persisted report per (instance, module, checkName) key). -/
def keysUnique (rows : List StorageRow) : Prop :=
  rows.Pairwise (fun a b => rowKey a ≠ rowKey b)

/-- Modelled from the spec: `Clean(retention)` removes every entry whose
age exceeds the retention window, independent of each entry's own validity
(spec section 4.3; interface and cleaning-job wiring at
src/unnamed/part_000 lines 489-493 and 598-608; the body is not under
src). -/
def cleanStorage (now retention : Nat) (rows : List StorageRow) : List StorageRow :=
  rows.filter (fun r => now - r.lastUpdated ≤ retention)

/-- Replace the validity duration of a persisted row. -/
def setRowValidity (r : StorageRow) (v : Nat) : StorageRow :=
  ⟨r.componentName, r.componentID, r.module, r.healthcheck, r.reportPayload, r.lastUpdated, v⟩

-- ===================================================================
-- Scheduler wiring (src/unnamed/part_000 lines 585-608)
-- ===================================================================

/-- A dependency handed to a constructor in the health wiring of the main
function (src/unnamed/part_000 lines 556-608). -/
inductive HealthDep where
  | checker (m : String)
  | validityOf (m : String)
  | storage
  | logWriter
  | component
  deriving DecidableEq, Repr

/-- The arguments the per-module refresh job constructor receives:
`MakeHealthJob(healthCheckers[m], m, healthChecksValidity[m],
healthStorage, logger)` (src/unnamed/part_000 line 589). -/
def makeHealthJobArgs (m : String) : List HealthDep :=
  [HealthDep.checker m, HealthDep.validityOf m, HealthDep.storage, HealthDep.logWriter]

/-- The argument the request-path endpoint constructor receives:
`health.MakeHealthChecksEndpoint(healthComponent)` (src/unnamed/part_000
line 576). -/
def healthChecksEndpointArgs : List HealthDep :=
  [HealthDep.component]

/-- Modelled from the spec: one tick of the per-module refresh job, built
from the dependencies it actually receives (the module's checker, its
validity and the storage, src/unnamed/part_000 line 589): probe every
declared check of the module and write each successful result (spec
section 4.5). The body of MakeHealthJob is not under src. -/
def healthJobTick (probe : String → String → ProbeResult) (now validity : Nat)
    (m : String) : List String → Cache → List HealthReport × Cache × Nat
  | [], cache => ([], cache, 0)
  | c :: cs, cache =>
    let e := executeFresh probe cache now validity m c
    let rest := healthJobTick probe now validity m cs e.2.1
    (e.1 :: rest.1, rest.2.1, e.2.2 + rest.2.2)

-- ===================================================================
-- Audit-events statistics (translated from src/unnamed/part_001 and
-- src/unnamed/part_002, package keycloakb)
-- ===================================================================

/-- Normalized error-message fragment `MsgErrInvalidParam`
(src/internal/keycloakb/errormessages.go). -/
def msgErrInvalidParam : String := "invalidParameter"

/-- Parameter name `DurationLabel` (src/internal/keycloakb/errormessages.go). -/
def durationLabelPrm : String := "durationLabel"

/-- Matching of a duration label against the Go regular expression
`^\d+ [A-Za-z]+$` (GetTotalConnectionsCount, src/unnamed/part_001 line 211
and src/unnamed/part_002 line 184): one or more ASCII digits, a single
space, one or more ASCII letters, anchored at both ends. -/
def matchDurationLabel (s : String) : Bool :=
  let cs := s.data
  let ds := cs.takeWhile Char.isDigit
  match cs.dropWhile Char.isDigit with
  | ' ' :: as => !ds.isEmpty && !as.isEmpty && as.all Char.isAlpha
  | _ => false

/-- GetTotalConnectionsCount (identical in src/unnamed/part_001 lines
210-219 and src/unnamed/part_002 lines 183-192): reject a duration label
not matching the regular expression with an invalidParameter error and no
database query; otherwise run the count query with the label substituted
for the ##INTERVAL## placeholder. The database is abstracted as the count
it would answer, and each issued query is recorded as its (substituted
interval label, realm parameter) pair. -/
def getTotalConnectionsCount (countAnswer : Int) (realmName durationLabel : String) :
    Except String Int × List (String × String) :=
  if !matchDurationLabel durationLabel then
    (Except.error (msgErrInvalidParam ++ "." ++ durationLabelPrm), [])
  else
    (Except.ok countAnswer, [(durationLabel, realmName)])

/-- Seconds field of the current minute: `second(UTC_TIMESTAMP)`. -/
def secOfMinute (now : Nat) : Nat := now % 60

/-- The shared WHERE window of both hourly-count queries
(src/unnamed/part_001 lines 76-79 and src/unnamed/part_002 lines 77-79):
`date_add(audit_time, INTERVAL 24 HOUR) >
 date_add(UTC_TIMESTAMP, INTERVAL (3600 - second(UTC_TIMESTAMP)) SECOND)`,
over timestamps in seconds. -/
def inConnWindow (now t : Nat) : Bool :=
  t + 86400 > now + (3600 - secOfMinute now)

/-- Hour of day (0..23) of a timestamp in seconds: `date_format(.., '%H')`
and `HOUR(..)`. -/
def hourOfDay (t : Nat) : Nat := t / 3600 % 24

/-- `time.Now().UTC().Hour()` of the clock instant. -/
def hourNow (now : Nat) : Nat := hourOfDay now

/-- LOGON_OK connection count of the realm inside the window for one hour
of day. The event list holds the timestamps of the realm's LOGON_OK audit
rows (the realm and event-type filters of the SQL are abstracted into the
choice of this list). -/
def cntHour (db : List Nat) (now h : Nat) : Nat :=
  (db.filter (fun t => inConnWindow now t && (hourOfDay t == h))).length

/-- Insertion into a sorted list of naturals. -/
def insertSorted (x : Nat) : List Nat → List Nat
  | [] => [x]
  | y :: ys => if x ≤ y then x :: y :: ys else y :: insertSorted x ys

/-- Insertion sort of naturals, ascending. -/
def sortNat (l : List Nat) : List Nat :=
  l.foldr insertSorted []

/-- The distinct in-window hour buckets (`date_format(audit_time,
'%Y-%m-%d %H')` group keys, encoded as t / 3600), ascending. -/
def connBuckets (db : List Nat) (now : Nat) : List Nat :=
  sortNat (((db.filter (fun t => inConnWindow now t)).map (fun t => t / 3600)).dedup)

/-- Result rows of the grouped hourly query selectConnectionsHoursCount
(src/unnamed/part_001 lines 76-79): one row per in-window (day, hour)
bucket, carrying the bucket's hour of day ('%H', parsed as an integer) and
its LOGON_OK count, in ascending group-key order. -/
def groupRows (db : List Nat) (now : Nat) : List (Nat × Nat) :=
  (connBuckets db now).map (fun b =>
    (b % 24, ((db.filter (fun t => inConnWindow now t)).filter (fun t => t / 3600 = b)).length))

/-- In-place update of one position of a pair list (`res[i][0] = v` /
`res[i][1] = v` on the Go slice of slices); out-of-range indices leave the
list unchanged. -/
def setAt (f : Int × Int → Int × Int) : Nat → List (Int × Int) → List (Int × Int)
  | _, [] => []
  | 0, p :: ps => f p :: ps
  | i + 1, p :: ps => p :: setAt f i ps

/-- The initialization loop of the grouped implementation
(src/unnamed/part_001 lines 234-237): for i = 0..23,
`res[24-i-1][0] = (hourNow - i + 24) % 24` with counts zeroed. -/
def hoursInit (h : Nat) : List (Int × Int) :=
  (List.range 24).foldl
    (fun acc i => setAt (fun p => ((((h + 24 - i) % 24 : Nat) : Int), p.2)) (24 - i - 1) acc)
    (List.replicate 24 ((0 : Int), (0 : Int)))

/-- GetTotalConnectionsHoursCount, grouped-query version
(src/unnamed/part_001 lines 222-243): run the grouped query, initialize
the 24 labelled rows, then for each returned row (h, c) set
`res[h][1] = c` — the row's hour value is used as the index. -/
def getTotalConnectionsHoursCountGrouped (db : List Nat) (now : Nat) : List (Int × Int) :=
  (groupRows db now).foldl
    (fun acc row => setAt (fun p => (p.1, (row.2 : Int))) row.1 acc)
    (hoursInit (hourNow now))

/-- GetTotalConnectionsHoursCount, per-offset-query version
(src/unnamed/part_002 lines 195-214): for i = 0..23 run one count query
for `HOUR(audit_time) = HOUR(DATE_SUB(UTC_TIMESTAMP, INTERVAL i HOUR))`,
i.e. hour of day (hourNow + 24 - i) % 24, label it
`24 + (hourNow - i)` when `hourNow - (i+1) < 0` and `hourNow - i`
otherwise. -/
def getTotalConnectionsHoursCountPerOffset (db : List Nat) (now : Nat) : List (Int × Int) :=
  (List.range 24).map (fun (i : Nat) =>
    let lbl : Int :=
      if (hourNow now : Int) - ((i : Int) + 1) < 0 then 24 + ((hourNow now : Int) - (i : Int))
      else (hourNow now : Int) - (i : Int)
    (lbl, (cntHour db now ((hourNow now + (24 - i)) % 24 : Nat) : Int)))

-- ===================================================================
-- Helper lemmas
-- ===================================================================

lemma worst_OK_left (s : Status) : Status.worst .OK s = s := by
  cases s <;> rfl

lemma worst_KO_right (s : Status) : Status.worst s .KO = .KO := by
  cases s <;> rfl

lemma worst_KO_left (s : Status) : Status.worst .KO s = .KO := by
  cases s <;> rfl

lemma aggregate_singleton (r : HealthReport) : aggregate [r] = r.status := by
  simp [aggregate, worst_OK_left]

lemma foldl_worst_from_KO (rs : List HealthReport) :
    rs.foldl (fun (s : Status) (r : HealthReport) => s.worst r.status) Status.KO = Status.KO := by
  induction rs with
  | nil => rfl
  | cons a as ih => simpa [worst_KO_left] using ih

lemma foldl_worst_mem_KO (rs : List HealthReport) (s : Status)
    (h : ∃ r ∈ rs, r.status = .KO) :
    rs.foldl (fun (s : Status) (r : HealthReport) => s.worst r.status) s = Status.KO := by
  induction rs generalizing s with
  | nil => simp at h
  | cons a as ih =>
    rcases h with ⟨r, hr, hKO⟩
    rcases List.mem_cons.mp hr with rfl | hmem
    · simp only [List.foldl_cons, hKO, worst_KO_right]
      exact foldl_worst_from_KO as
    · exact ih _ ⟨r, hmem, hKO⟩

lemma aggregate_KO_of_mem (rs : List HealthReport)
    (h : ∃ r ∈ rs, r.status = .KO) : aggregate rs = .KO :=
  foldl_worst_mem_KO rs .OK h

lemma executeFresh_checkName (probe : String → String → ProbeResult) (cache : Cache)
    (now validity : Nat) (m c : String) :
    (executeFresh probe cache now validity m c).1.checkName = c ∧
    (executeFresh probe cache now validity m c).1.module = m := by
  cases hp : probe m c <;> simp [executeFresh, hp]

-- ===================================================================
-- C1: fresh cached report served unchanged without probing
-- ===================================================================

/-- C1: for a key K with a cached report written at t0 with validity V, a
request at time now with timestamp ≤ now < t0 + V and noCache = false
returns that cached report unchanged, leaves the cache untouched and
invokes zero probes; and a report is fresh exactly when now minus its
timestamp is strictly below its validity. -/
theorem cachedFreshServedFromCache (probe : String → String → ProbeResult) (cache : Cache)
    (now : Nat) (validity : String → Nat) (m c : String) (r : HealthReport)
    (hm : m ≠ "") (hc : c ≠ "") (ha : authorize m c = true)
    (hcache : cache (m, c) = some r) (hts : r.timestamp ≤ now)
    (hlt : now < r.timestamp + r.validity) :
    orchestrate probe cache now validity false m c =
      (Except.ok ([r], r.status), cache, 0) ∧
    (freshReport now r = true ↔ now - r.timestamp < r.validity) := by
  have hf : freshReport now r = true := by
    simp only [freshReport, decide_eq_true_eq]
    omega
  constructor
  · simp [orchestrate, ha, targetsOf, hm, hc, fanOutPairs, resolveTarget, hcache, hf,
      aggregate_singleton]
  · simp [freshReport]

/-- Witness for C1 at a concrete fresh cache entry. -/
theorem cachedFreshServedFromCache_w :
    orchestrate (fun _ _ => ProbeResult.err)
        (fun k => if k = (("redis"), ("ping")) then
          some ⟨("redis"), ("ping"), .OK, ("pong"), 100, 60⟩ else none)
        130 (fun _ => 60) false ("redis") ("ping") =
      (Except.ok ([⟨("redis"), ("ping"), .OK, ("pong"), 100, 60⟩], Status.OK),
        (fun k => if k = (("redis"), ("ping")) then
          some ⟨("redis"), ("ping"), .OK, ("pong"), 100, 60⟩ else none),
        0) :=
  (cachedFreshServedFromCache (fun _ _ => ProbeResult.err) _ 130 (fun _ => 60)
    ("redis") ("ping") ⟨("redis"), ("ping"), .OK, ("pong"), 100, 60⟩
    (by decide) (by decide) (by decide) (by simp) (by decide) (by decide)).1

-- ===================================================================
-- C5: noCache always probes and persists on success
-- ===================================================================

/-- C5: with noCache = true the target is probed exactly once regardless
of the cache state, and a successful probe's fresh result is written to
the cache afterward. -/
theorem noCacheAlwaysProbesAndWrites (probe : String → String → ProbeResult)
    (cache : Cache) (now validity : Nat) (m c : String) :
    (resolveTarget probe cache now true validity m c).2.2 = 1 ∧
    (∀ s d, probe m c = .ok s d →
      (resolveTarget probe cache now true validity m c).2.1 (m, c) =
        some ⟨m, c, s, d, now, validity⟩) := by
  constructor
  · cases hp : probe m c <;> simp [resolveTarget, executeFresh, hp]
  · intro s d hp
    simp [resolveTarget, executeFresh, hp, Cache.update]

/-- Witness for C5 at a concrete key whose cached entry is still fresh. -/
theorem noCacheAlwaysProbesAndWrites_w :
    (resolveTarget (fun _ _ => ProbeResult.ok .OK ("pong"))
        (fun _ => some ⟨("redis"), ("ping"), .OK, ("old"), 100, 60⟩)
        130 true 60 ("redis") ("ping")).2.2 = 1 ∧
    (resolveTarget (fun _ _ => ProbeResult.ok .OK ("pong"))
        (fun _ => some ⟨("redis"), ("ping"), .OK, ("old"), 100, 60⟩)
        130 true 60 ("redis") ("ping")).2.1 (("redis"), ("ping")) =
      some ⟨("redis"), ("ping"), .OK, ("pong"), 130, 60⟩ :=
  ⟨(noCacheAlwaysProbesAndWrites (fun _ _ => ProbeResult.ok .OK ("pong"))
      (fun _ => some ⟨("redis"), ("ping"), .OK, ("old"), 100, 60⟩)
      130 60 ("redis") ("ping")).1,
   (noCacheAlwaysProbesAndWrites (fun _ _ => ProbeResult.ok .OK ("pong"))
      (fun _ => some ⟨("redis"), ("ping"), .OK, ("old"), 100, 60⟩)
      130 60 ("redis") ("ping")).2 .OK ("pong") rfl⟩

-- ===================================================================
-- C2: single-flight on a stale key
-- ===================================================================

lemma sfRun_joined (probe : String → String → ProbeResult) (cache : Cache)
    (now validity : Nat) (m c : String) (r w : HealthReport)
    (hcache : cache (m, c) = some r) (hf : freshReport now r = false) :
    ∀ n, singleFlightRun probe cache now validity m c (some w) n =
      (0, List.replicate n w) := by
  intro n
  induction n with
  | zero => rfl
  | succ k ih => simp [singleFlightRun, sfCaller, hcache, hf, ih, List.replicate_succ]

/-- C2: for a key whose cached report is stale (now ≥ t0 + V), any number
n ≥ 1 of concurrent identical requests settled against the shared
single-flight slot invokes the probe exactly once, and every caller
receives the single winning execution's report. -/
theorem singleFlightOneProbe (probe : String → String → ProbeResult) (cache : Cache)
    (now validity : Nat) (m c : String) (r : HealthReport) (n : Nat)
    (hcache : cache (m, c) = some r) (hstale : r.timestamp + r.validity ≤ now)
    (hn : 1 ≤ n) :
    (singleFlightRun probe cache now validity m c none n).1 = 1 ∧
    (singleFlightRun probe cache now validity m c none n).2 =
      List.replicate n (executeFresh probe cache now validity m c).1 := by
  have hf : freshReport now r = false := by
    simp only [freshReport, decide_eq_false_iff_not, not_lt]
    omega
  cases n with
  | zero => omega
  | succ k =>
    have hjoin := sfRun_joined probe cache now validity m c r
      (executeFresh probe cache now validity m c).1 hcache hf k
    constructor
    · simp [singleFlightRun, sfCaller, hcache, hf, hjoin]
    · simp [singleFlightRun, sfCaller, hcache, hf, hjoin, List.replicate_succ]

/-- Witness for C2: three concurrent requests for a stale key yield one
probe invocation and three copies of the winner's report. -/
theorem singleFlightOneProbe_w :
    (singleFlightRun (fun _ _ => ProbeResult.ok .OK ("pong"))
        (fun _ => some ⟨("redis"), ("ping"), .OK, ("old"), 100, 60⟩)
        200 60 ("redis") ("ping") none 3).1 = 1 ∧
    (singleFlightRun (fun _ _ => ProbeResult.ok .OK ("pong"))
        (fun _ => some ⟨("redis"), ("ping"), .OK, ("old"), 100, 60⟩)
        200 60 ("redis") ("ping") none 3).2 =
      List.replicate 3 ⟨("redis"), ("ping"), .OK, ("pong"), 200, 60⟩ :=
  singleFlightOneProbe (fun _ _ => ProbeResult.ok .OK ("pong"))
    (fun _ => some ⟨("redis"), ("ping"), .OK, ("old"), 100, 60⟩)
    200 60 ("redis") ("ping") ⟨("redis"), ("ping"), .OK, ("old"), 100, 60⟩ 3
    rfl (by decide) (by decide)

-- ===================================================================
-- C3: validation gate
-- ===================================================================

/-- Whether an Orchestrator answer is a non-error response. -/
def answerOk : Except String (List HealthReport × Status) → Bool
  | .ok _ => true
  | .error _ => false

/-- C3: a (module, checkName) pair outside the static allow-list is
rejected with a validation error before any probe runs and with the cache
untouched; an allowed pair is never rejected; and the empty-string
wildcards (the all-modules pair and each module's all-checks pair) are in
the allow-list. -/
theorem validationGate (probe : String → String → ProbeResult) (cache : Cache)
    (now : Nat) (validity : String → Nat) (noCache : Bool) (m c : String) :
    (authorize m c = false →
      orchestrate probe cache now validity noCache m c =
        (Except.error validationErrMsg, cache, 0)) ∧
    (authorize m c = true →
      answerOk (orchestrate probe cache now validity noCache m c).1 = true) ∧
    authorize ("") ("") = true ∧
    (∀ m2, m2 ∈ validModules → authorize m2 ("") = true) := by
  refine ⟨?_, ?_, by decide, ?_⟩
  · intro h
    simp [orchestrate, h]
  · intro h
    simp [orchestrate, h, answerOk]
  · intro m2 hm2
    simp only [validModules, List.mem_cons, List.not_mem_nil, or_false] at hm2
    rcases hm2 with rfl | rfl | rfl | rfl | rfl | rfl | rfl | rfl | rfl <;> decide

/-- Witness for C3: the pair (keycloak, ping) is not in the allow-list and
is rejected without probing or cache mutation. -/
theorem validationGate_w :
    orchestrate (fun _ _ => ProbeResult.err) (fun _ => none) 0 (fun _ => 60)
        false ("keycloak") ("ping") =
      (Except.error validationErrMsg, (fun _ => none), 0) :=
  (validationGate (fun _ _ => ProbeResult.err) (fun _ => none) 0 (fun _ => 60)
    false ("keycloak") ("ping")).1 (by decide)

-- ===================================================================
-- C4: probe failure isolation in a fan-out
-- ===================================================================

lemma resolveTarget_true (probe : String → String → ProbeResult) (cache : Cache)
    (now validity : Nat) (m c : String) :
    resolveTarget probe cache now true validity m c =
      executeFresh probe cache now validity m c := rfl

lemma fanOut_checkNames (probe : String → String → ProbeResult) (now : Nat)
    (validity : String → Nat) (m : String) :
    ∀ (checks : List String) (cache : Cache),
      (fanOutPairs probe now true validity (checks.map (fun x => (m, x))) cache).1.map
        (fun r => r.checkName) = checks := by
  intro checks
  induction checks with
  | nil => intro cache; rfl
  | cons x xs ih =>
    intro cache
    simp only [List.map_cons, fanOutPairs, resolveTarget_true, List.cons.injEq]
    exact ⟨(executeFresh_checkName probe cache now (validity m) m x).1, ih _⟩

lemma fanOut_KO_entry (probe : String → String → ProbeResult) (now : Nat)
    (validity : String → Nat) (m c : String) (herr : probe m c = .err) :
    ∀ (checks : List String) (cache : Cache) (r : HealthReport),
      r ∈ (fanOutPairs probe now true validity (checks.map (fun x => (m, x))) cache).1 →
      r.checkName = c → r.status = .KO := by
  intro checks
  induction checks with
  | nil => intro cache r hr; simp [fanOutPairs] at hr
  | cons x xs ih =>
    intro cache r hr hname
    simp only [List.map_cons, fanOutPairs, resolveTarget_true, List.mem_cons] at hr
    rcases hr with rfl | htail
    · by_cases hxc : x = c
      · subst hxc
        simp [executeFresh, herr]
      · have hx := (executeFresh_checkName probe cache now (validity m) m x).1
        exact absurd (hx.symm.trans hname) hxc
    · exact ih _ _ htail hname

lemma fanOut_cache_preserved (probe : String → String → ProbeResult) (now : Nat)
    (validity : String → Nat) (m c : String) (herr : probe m c = .err) :
    ∀ (checks : List String) (cache : Cache),
      (fanOutPairs probe now true validity (checks.map (fun x => (m, x))) cache).2.1 (m, c) =
        cache (m, c) := by
  intro checks
  induction checks with
  | nil => intro cache; rfl
  | cons x xs ih =>
    intro cache
    simp only [List.map_cons, fanOutPairs, resolveTarget_true]
    rw [ih]
    cases hp : probe m x with
    | ok s d =>
      simp only [executeFresh, hp, Cache.update]
      have hne : c ≠ x := by
        intro hcon
        rw [hcon] at herr
        rw [herr] at hp
        cases hp
      simp [hne]
    | err => simp [executeFresh, hp]

/-- C4: in a fan-out over the checks of a module (each executed fresh),
a probe error on one check yields entries for every requested check, a KO
entry for the failing key, no cache write for that key, and a KO module
aggregate. -/
theorem fanOutIsolatesProbeError (probe : String → String → ProbeResult) (now : Nat)
    (validity : String → Nat) (m : String) (checks : List String) (cache : Cache)
    (c : String) (hmem : c ∈ checks) (herr : probe m c = .err) :
    ((fanOutPairs probe now true validity (checks.map (fun x => (m, x))) cache).1.map
        (fun r => r.checkName) = checks) ∧
    (∀ r ∈ (fanOutPairs probe now true validity (checks.map (fun x => (m, x))) cache).1,
      r.checkName = c → r.status = .KO) ∧
    ((fanOutPairs probe now true validity
        (checks.map (fun x => (m, x))) cache).2.1 (m, c) = cache (m, c)) ∧
    aggregate
      (fanOutPairs probe now true validity (checks.map (fun x => (m, x))) cache).1 = .KO := by
  have hnames := fanOut_checkNames probe now validity m checks cache
  have hKO := fanOut_KO_entry probe now validity m c herr checks cache
  refine ⟨hnames, hKO, fanOut_cache_preserved probe now validity m c herr checks cache, ?_⟩
  have hex : ∃ r ∈ (fanOutPairs probe now true validity
      (checks.map (fun x => (m, x))) cache).1, r.checkName = c := by
    have : c ∈ (fanOutPairs probe now true validity
        (checks.map (fun x => (m, x))) cache).1.map (fun r => r.checkName) := by
      rw [hnames]; exact hmem
    simpa using this
  rcases hex with ⟨r, hr, hname⟩
  exact aggregate_KO_of_mem _ ⟨r, hr, hKO r hr hname⟩

/-- Witness for C4: among the keycloak checks, createuser fails while
deleteuser succeeds; entries for both checks are present. -/
theorem fanOutIsolatesProbeError_w :
    ((fanOutPairs
        (fun _ c => if c = ("createuser") then ProbeResult.err else ProbeResult.ok .OK ("fine"))
        500 true (fun _ => 60)
        ([("createuser"), ("deleteuser")].map (fun x => (("keycloak"), x)))
        (fun _ => none)).1.map (fun r => r.checkName) = [("createuser"), ("deleteuser")]) :=
  (fanOutIsolatesProbeError
    (fun _ c => if c = ("createuser") then ProbeResult.err else ProbeResult.ok .OK ("fine"))
    500 (fun _ => 60) ("keycloak") [("createuser"), ("deleteuser")] (fun _ => none)
    ("createuser") (by decide) (by decide)).1

-- ===================================================================
-- C6: cleanup prunes exactly by retention
-- ===================================================================

/-- C6: Clean keeps exactly the rows whose age is at most the retention
window (every older row is removed), keeps them in place as a sublist,
and behaves identically whatever each row's own validity duration is. -/
theorem cleanRemovesByRetention (now retention : Nat) (rows : List StorageRow) :
    (∀ r, r ∈ cleanStorage now retention rows ↔
      r ∈ rows ∧ now - r.lastUpdated ≤ retention) ∧
    List.Sublist (cleanStorage now retention rows) rows ∧
    (∀ v, cleanStorage now retention (rows.map (fun r => setRowValidity r v)) =
      (cleanStorage now retention rows).map (fun r => setRowValidity r v)) := by
  refine ⟨?_, List.filter_sublist rows, ?_⟩
  · intro r
    simp [cleanStorage, List.mem_filter]
  · intro v
    induction rows with
    | nil => rfl
    | cons a as ih =>
      simp only [cleanStorage, List.map_cons, List.filter_cons, setRowValidity] at ih ⊢
      by_cases h : now - a.lastUpdated ≤ retention
      · simp only [h, decide_True, if_true, List.map_cons]
        rw [ih]
      · simp only [h, decide_False, Bool.false_eq_true, if_false]
        exact ih

/-- Witness for C6 on a two-row store: the row aged beyond retention is
removed and the row within retention survives despite a tiny validity. -/
theorem cleanRemovesByRetention_w :
    (⟨("kb"), ("id1"), ("redis"), ("ping"), ("old"), 0, 1000000⟩ : StorageRow) ∈
        cleanStorage 500 100
          [⟨("kb"), ("id1"), ("redis"), ("ping"), ("old"), 0, 1000000⟩,
           ⟨("kb"), ("id1"), ("flaki"), ("nextid"), ("new"), 450, 1⟩] ↔
      (⟨("kb"), ("id1"), ("redis"), ("ping"), ("old"), 0, 1000000⟩ : StorageRow) ∈
          [⟨("kb"), ("id1"), ("redis"), ("ping"), ("old"), 0, 1000000⟩,
           ⟨("kb"), ("id1"), ("flaki"), ("nextid"), ("new"), 450, 1⟩] ∧
        500 - (0 : Nat) ≤ 100 :=
  (cleanRemovesByRetention 500 100
    [⟨("kb"), ("id1"), ("redis"), ("ping"), ("old"), 0, 1000000⟩,
     ⟨("kb"), ("id1"), ("flaki"), ("nextid"), ("new"), 450, 1⟩]).1
    ⟨("kb"), ("id1"), ("redis"), ("ping"), ("old"), 0, 1000000⟩

-- ===================================================================
-- C8: storage rows keyed by (instance, module, checkName)
-- ===================================================================

lemma writeRow_keysUnique (s : StorageModule) (now validity : Nat)
    (m c payload : String) (rows : List StorageRow) (hu : keysUnique rows) :
    keysUnique (writeRow s now validity m c payload rows) := by
  unfold writeRow keysUnique
  refine List.Pairwise.cons ?_ (hu.sublist (List.filter_sublist rows))
  intro b hb
  have := (List.mem_filter.mp hb).2
  simp only [decide_eq_true_eq] at this
  exact fun hcon => this hcon.symm

lemma writeRow_mem_other (s : StorageModule) (now validity : Nat)
    (m c payload : String) (rows : List StorageRow) (b : StorageRow)
    (hb : b ∈ rows) (hid : b.componentID ≠ s.componentID) :
    b ∈ writeRow s now validity m c payload rows := by
  unfold writeRow
  refine List.mem_cons_of_mem _ (List.mem_filter.mpr ⟨hb, ?_⟩)
  simp only [decide_eq_true_eq]
  intro hcon
  exact hid (congrArg (fun k => k.2.1) hcon)

lemma writeRow_mem_back (s : StorageModule) (now validity : Nat)
    (m c payload : String) (rows : List StorageRow) (b : StorageRow)
    (hb : b ∈ writeRow s now validity m c payload rows)
    (hid : b.componentID ≠ s.componentID) : b ∈ rows := by
  unfold writeRow at hb
  rcases List.mem_cons.mp hb with rfl | hmem
  · exact absurd rfl hid
  · exact (List.mem_filter.mp hmem).1

lemma updateStorage_keysUnique (s : StorageModule) (now validity : Nat) (m : String) :
    ∀ (reports : List (String × String)) (rows : List StorageRow),
      keysUnique rows → keysUnique (updateStorage s now validity m reports rows) := by
  intro reports
  induction reports with
  | nil => intro rows hu; exact hu
  | cons rep reps ih =>
    intro rows hu
    exact ih _ (writeRow_keysUnique s now validity m rep.1 rep.2 rows hu)

lemma updateStorage_mem_other (s : StorageModule) (now validity : Nat) (m : String) :
    ∀ (reports : List (String × String)) (rows : List StorageRow) (b : StorageRow),
      b ∈ rows → b.componentID ≠ s.componentID →
      b ∈ updateStorage s now validity m reports rows := by
  intro reports
  induction reports with
  | nil => intro rows b hb _; exact hb
  | cons rep reps ih =>
    intro rows b hb hid
    exact ih _ b (writeRow_mem_other s now validity m rep.1 rep.2 rows b hb hid) hid

lemma updateStorage_mem_back (s : StorageModule) (now validity : Nat) (m : String) :
    ∀ (reports : List (String × String)) (rows : List StorageRow) (b : StorageRow),
      b ∈ updateStorage s now validity m reports rows →
      b.componentID ≠ s.componentID → b ∈ rows := by
  intro reports
  induction reports with
  | nil => intro rows b hb _; exact hb
  | cons rep reps ih =>
    intro rows b hb hid
    exact writeRow_mem_back s now validity m rep.1 rep.2 rows b (ih _ b hb hid) hid

/-- C8: the Cache Store is constructed with the component-instance
identifier as an explicit parameter and persists every row under the
(instance, module, checkName) key: an update preserves key uniqueness (at
most one row per key), and the rows of every other instance are exactly
preserved — never overwritten or removed. -/
theorem storageKeyedByInstance (name id : String) (now validity : Nat) (m : String)
    (reports : List (String × String)) (rows : List StorageRow)
    (hu : keysUnique rows) :
    (NewStorageModule name id).componentID = id ∧
    keysUnique (updateStorage (NewStorageModule name id) now validity m reports rows) ∧
    (∀ b ∈ rows, b.componentID ≠ id →
      b ∈ updateStorage (NewStorageModule name id) now validity m reports rows) ∧
    (∀ b ∈ updateStorage (NewStorageModule name id) now validity m reports rows,
      b.componentID ≠ id → b ∈ rows) := by
  refine ⟨rfl, updateStorage_keysUnique _ now validity m reports rows hu, ?_, ?_⟩
  · intro b hb hid
    exact updateStorage_mem_other _ now validity m reports rows b hb hid
  · intro b hb hid
    exact updateStorage_mem_back _ now validity m reports rows b hb hid

/-- Witness for C8: an update by instance id2 preserves the row persisted
by instance id1 and keeps keys unique. -/
theorem storageKeyedByInstance_w :
    (⟨("kb"), ("id1"), ("redis"), ("ping"), ("ok"), 7, 60⟩ : StorageRow) ∈
      updateStorage (NewStorageModule ("kb") ("id2")) 9 60 ("redis")
        [(("ping"), ("ko"))]
        [⟨("kb"), ("id1"), ("redis"), ("ping"), ("ok"), 7, 60⟩] :=
  (storageKeyedByInstance ("kb") ("id2") 9 60 ("redis") [(("ping"), ("ko"))]
      [⟨("kb"), ("id1"), ("redis"), ("ping"), ("ok"), 7, 60⟩]
      (List.pairwise_singleton _ _)).2.2.1
    ⟨("kb"), ("id1"), ("redis"), ("ping"), ("ok"), 7, 60⟩ (List.mem_singleton.mpr rfl)
    (by decide)

-- ===================================================================
-- C7: scheduler refresh job versus the Orchestrator entry point
-- ===================================================================

/-- C7 counterexample: the per-module refresh job constructor is handed
the module's checker, validity and the storage, but not the Orchestrator
component that the request-path endpoint is built from, so the scheduler
does not execute the same Orchestrator entry point as request-driven
calls. -/
theorem healthJobLacksComponent :
    HealthDep.component ∉ makeHealthJobArgs ("cockroach") ∧
    HealthDep.component ∈ healthChecksEndpointArgs := by
  decide

/-- C7 amended: although the refresh job is built directly from the
checker, validity and storage rather than from the Orchestrator, one tick
of it produces exactly the entries, cache writes and probe invocations of
a noCache = true fan-out over the module's checks. -/
theorem healthJobMatchesNoCacheFanOut (probe : String → String → ProbeResult)
    (now : Nat) (validity : String → Nat) (m : String) (checks : List String)
    (cache : Cache) :
    healthJobTick probe now (validity m) m checks cache =
      fanOutPairs probe now true validity (checks.map (fun c => (m, c))) cache := by
  induction checks generalizing cache with
  | nil => rfl
  | cons c cs ih =>
    simp only [healthJobTick, List.map_cons, fanOutPairs, resolveTarget_true, ih]

-- ===================================================================
-- C10: duration-label validation in GetTotalConnectionsCount
-- ===================================================================

/-- C10: a duration label that does not match `^\d+ [A-Za-z]+$` makes
GetTotalConnectionsCount return the invalidParameter.durationLabel error
with no database query issued; a matching label runs exactly the count
query with that label substituted; so only matching labels ever reach the
SQL statement. -/
theorem getTotalConnectionsCount_validates (countAnswer : Int)
    (realmName durationLabel : String) :
    (matchDurationLabel durationLabel = false →
      getTotalConnectionsCount countAnswer realmName durationLabel =
        (Except.error (msgErrInvalidParam ++ "." ++ durationLabelPrm), [])) ∧
    (matchDurationLabel durationLabel = true →
      getTotalConnectionsCount countAnswer realmName durationLabel =
        (Except.ok countAnswer, [(durationLabel, realmName)])) ∧
    (∀ q ∈ (getTotalConnectionsCount countAnswer realmName durationLabel).2,
      q.1 = durationLabel ∧ matchDurationLabel durationLabel = true) := by
  refine ⟨?_, ?_, ?_⟩
  · intro h
    simp [getTotalConnectionsCount, h]
  · intro h
    simp [getTotalConnectionsCount, h]
  · intro q hq
    by_cases h : matchDurationLabel durationLabel
    · simp only [getTotalConnectionsCount, h, Bool.not_true, Bool.false_eq_true,
        if_false, List.mem_singleton] at hq
      exact ⟨congrArg Prod.fst hq, h⟩
    · simp [getTotalConnectionsCount, h] at hq

/-- Witness for C10: an injection-shaped label is rejected without a
query, and a well-formed label is substituted into the query. -/
theorem getTotalConnectionsCount_validates_w :
    getTotalConnectionsCount 5 ("master") ("1 DAY OR TRUE") =
      (Except.error (msgErrInvalidParam ++ "." ++ durationLabelPrm), []) ∧
    getTotalConnectionsCount 5 ("master") ("12 HOUR") =
      (Except.ok 5, [(("12 HOUR"), ("master"))]) :=
  ⟨(getTotalConnectionsCount_validates 5 ("master") ("1 DAY OR TRUE")).1 (by decide),
   (getTotalConnectionsCount_validates 5 ("master") ("12 HOUR")).2.1 (by decide)⟩

-- ===================================================================
-- C9: the two GetTotalConnectionsHoursCount implementations
-- ===================================================================

/-- C9 counterexample: on an empty audit table at clock second 180000
(02:00:00 UTC) the grouped-query implementation and the per-offset-query
implementation return different lists, so the two are not equivalent. -/
theorem hoursCountImplsDiffer :
    getTotalConnectionsHoursCountGrouped [] 180000 ≠
      getTotalConnectionsHoursCountPerOffset [] 180000 := by
  decide

lemma setAt_length (f : Int × Int → Int × Int) :
    ∀ (i : Nat) (l : List (Int × Int)), (setAt f i l).length = l.length := by
  intro i
  induction i with
  | zero => intro l; cases l <;> rfl
  | succ k ih => intro l; cases l with
    | nil => rfl
    | cons p ps => simp [setAt, ih]

lemma setAt_getD (f : Int × Int → Int × Int) :
    ∀ (i : Nat) (l : List (Int × Int)) (j : Nat) (d : Int × Int),
      (setAt f i l).getD j d =
        if j = i ∧ j < l.length then f (l.getD j d) else l.getD j d := by
  intro i
  induction i with
  | zero =>
    intro l j d
    cases l with
    | nil => simp [setAt]
    | cons p ps =>
      cases j with
      | zero => simp [setAt]
      | succ k => simp [setAt]
  | succ n ih =>
    intro l j d
    cases l with
    | nil => simp [setAt]
    | cons p ps =>
      cases j with
      | zero => simp [setAt]
      | succ k =>
        simp only [setAt, List.getD_cons_succ, ih, List.length_cons]
        by_cases hk : k = n ∧ k < ps.length
        · rw [if_pos hk, if_pos ⟨by omega, by omega⟩]
        · rw [if_neg hk, if_neg (by omega)]

lemma foldl_rows_length (rows : List (Nat × Nat)) (acc : List (Int × Int)) :
    (rows.foldl (fun acc row => setAt (fun p => (p.1, (row.2 : Int))) row.1 acc) acc).length =
      acc.length := by
  induction rows generalizing acc with
  | nil => rfl
  | cons r rs ih => simp [List.foldl_cons, ih, setAt_length]

lemma foldl_rows_fst (rows : List (Nat × Nat)) (acc : List (Int × Int)) (j : Nat)
    (d : Int × Int) :
    ((rows.foldl (fun acc row => setAt (fun p => (p.1, (row.2 : Int))) row.1 acc) acc).getD
        j d).1 = (acc.getD j d).1 := by
  induction rows generalizing acc with
  | nil => rfl
  | cons r rs ih =>
    simp only [List.foldl_cons, ih, setAt_getD]
    by_cases hc : j = r.1 ∧ j < acc.length
    · rw [if_pos hc]
    · rw [if_neg hc]

lemma hoursInit_length (h : Nat) : (hoursInit h).length = 24 := rfl

lemma rangeMap_getD (n : Nat) (f : Nat → Int × Int) (j : Nat) (hj : j < n)
    (d : Int × Int) : ((List.range n).map f).getD j d = f j := by
  rw [List.getD_eq_getElem?_getD, List.getElem?_map, List.getElem?_range hj]
  rfl

lemma hoursInit_eq (h : Nat) :
    hoursInit h = (List.range 24).map (fun j => ((((h + j + 1) % 24 : Nat) : Int), (0 : Int))) := by
  show [((((h + 24 - 23) % 24 : Nat) : Int), (0 : Int)),
        ((((h + 24 - 22) % 24 : Nat) : Int), (0 : Int)),
        ((((h + 24 - 21) % 24 : Nat) : Int), (0 : Int)),
        ((((h + 24 - 20) % 24 : Nat) : Int), (0 : Int)),
        ((((h + 24 - 19) % 24 : Nat) : Int), (0 : Int)),
        ((((h + 24 - 18) % 24 : Nat) : Int), (0 : Int)),
        ((((h + 24 - 17) % 24 : Nat) : Int), (0 : Int)),
        ((((h + 24 - 16) % 24 : Nat) : Int), (0 : Int)),
        ((((h + 24 - 15) % 24 : Nat) : Int), (0 : Int)),
        ((((h + 24 - 14) % 24 : Nat) : Int), (0 : Int)),
        ((((h + 24 - 13) % 24 : Nat) : Int), (0 : Int)),
        ((((h + 24 - 12) % 24 : Nat) : Int), (0 : Int)),
        ((((h + 24 - 11) % 24 : Nat) : Int), (0 : Int)),
        ((((h + 24 - 10) % 24 : Nat) : Int), (0 : Int)),
        ((((h + 24 - 9) % 24 : Nat) : Int), (0 : Int)),
        ((((h + 24 - 8) % 24 : Nat) : Int), (0 : Int)),
        ((((h + 24 - 7) % 24 : Nat) : Int), (0 : Int)),
        ((((h + 24 - 6) % 24 : Nat) : Int), (0 : Int)),
        ((((h + 24 - 5) % 24 : Nat) : Int), (0 : Int)),
        ((((h + 24 - 4) % 24 : Nat) : Int), (0 : Int)),
        ((((h + 24 - 3) % 24 : Nat) : Int), (0 : Int)),
        ((((h + 24 - 2) % 24 : Nat) : Int), (0 : Int)),
        ((((h + 24 - 1) % 24 : Nat) : Int), (0 : Int)),
        ((((h + 24 - 0) % 24 : Nat) : Int), (0 : Int))] =
      [((((h + 0 + 1) % 24 : Nat) : Int), (0 : Int)),
        ((((h + 1 + 1) % 24 : Nat) : Int), (0 : Int)),
        ((((h + 2 + 1) % 24 : Nat) : Int), (0 : Int)),
        ((((h + 3 + 1) % 24 : Nat) : Int), (0 : Int)),
        ((((h + 4 + 1) % 24 : Nat) : Int), (0 : Int)),
        ((((h + 5 + 1) % 24 : Nat) : Int), (0 : Int)),
        ((((h + 6 + 1) % 24 : Nat) : Int), (0 : Int)),
        ((((h + 7 + 1) % 24 : Nat) : Int), (0 : Int)),
        ((((h + 8 + 1) % 24 : Nat) : Int), (0 : Int)),
        ((((h + 9 + 1) % 24 : Nat) : Int), (0 : Int)),
        ((((h + 10 + 1) % 24 : Nat) : Int), (0 : Int)),
        ((((h + 11 + 1) % 24 : Nat) : Int), (0 : Int)),
        ((((h + 12 + 1) % 24 : Nat) : Int), (0 : Int)),
        ((((h + 13 + 1) % 24 : Nat) : Int), (0 : Int)),
        ((((h + 14 + 1) % 24 : Nat) : Int), (0 : Int)),
        ((((h + 15 + 1) % 24 : Nat) : Int), (0 : Int)),
        ((((h + 16 + 1) % 24 : Nat) : Int), (0 : Int)),
        ((((h + 17 + 1) % 24 : Nat) : Int), (0 : Int)),
        ((((h + 18 + 1) % 24 : Nat) : Int), (0 : Int)),
        ((((h + 19 + 1) % 24 : Nat) : Int), (0 : Int)),
        ((((h + 20 + 1) % 24 : Nat) : Int), (0 : Int)),
        ((((h + 21 + 1) % 24 : Nat) : Int), (0 : Int)),
        ((((h + 22 + 1) % 24 : Nat) : Int), (0 : Int)),
        ((((h + 23 + 1) % 24 : Nat) : Int), (0 : Int))]
  simp only [List.cons.injEq, Prod.mk.injEq, Nat.cast_inj, and_true]
  omega

lemma hoursInit_getD (h j : Nat) (hj : j < 24) :
    (hoursInit h).getD j ((0 : Int), (0 : Int)) =
      ((((h + j + 1) % 24 : Nat) : Int), (0 : Int)) := by
  rw [hoursInit_eq, rangeMap_getD 24 _ j hj]

/-- C9 amended: both implementations return exactly 24 two-element rows,
but not the same list. At index i the grouped version carries the label
(hourNow + i + 1) mod 24 (ascending, ending at the current hour), while
the per-offset version carries the label (hourNow - i) mod 24
(descending from the current hour) except that it emits 24 in place of 0
when i = hourNow, paired with the LOGON_OK count of hour of day
(hourNow - i) mod 24; the grouped version fills its count column per
returned row at the index equal to that row's hour value, not at the
index carrying that hour's label. -/
theorem hoursCountShapes (db : List Nat) (now : Nat) (i : Fin 24) :
    (getTotalConnectionsHoursCountGrouped db now).length = 24 ∧
    (getTotalConnectionsHoursCountPerOffset db now).length = 24 ∧
    ((getTotalConnectionsHoursCountGrouped db now).getD i.val ((0 : Int), (0 : Int))).1 =
      (((hourNow now + i.val + 1) % 24 : Nat) : Int) ∧
    (getTotalConnectionsHoursCountPerOffset db now).getD i.val ((0 : Int), (0 : Int)) =
      ((if i.val = hourNow now then (24 : Int)
        else (((hourNow now + (24 - i.val)) % 24 : Nat) : Int)),
       (cntHour db now ((hourNow now + (24 - i.val)) % 24 : Nat) : Int)) := by
  have hlt : hourNow now < 24 := Nat.mod_lt _ (by omega)
  have hi := i.isLt
  refine ⟨?_, ?_, ?_, ?_⟩
  · unfold getTotalConnectionsHoursCountGrouped
    rw [foldl_rows_length, hoursInit_length]
  · simp [getTotalConnectionsHoursCountPerOffset]
  · unfold getTotalConnectionsHoursCountGrouped
    rw [foldl_rows_fst, hoursInit_getD (hourNow now) i.val hi]
  · unfold getTotalConnectionsHoursCountPerOffset
    rw [rangeMap_getD 24 _ i.val hi]
    simp only [Prod.mk.injEq]
    constructor
    · split_ifs <;> omega
    · trivial
